import Mathlib

/-!
Shallow embedding of the asset resolution and edit-overlay layer of the
animosity repository (src/files.rs), together with proofs settling the
frozen claims about it.

The `Files` state, its `Edit` overlay, the location resolver
(`file_location`, `file_location_hd`, `separate_file_path`), the composite
view constructor (`Files.file`), the four mutation operations
(`set_ref_enabled`, `set_ref_img`, `set_tex_changes`, `update_file`),
`has_changes` and `save` are translated from src/files.rs.

The binary container codec (the `anim` crate: `MainSd`, `Anim`,
`SpriteValues`, `TexChanges`, `ValuesOrRef`) is not part of src/; those
types are modelled from the spec at their interface boundary, with
per-sprite payloads (frames, texture bytes) abstracted to opaque tokens,
since no claim depends on their contents.

The ambient filesystem is modelled by an explicit oracle `Fs` passed to
every operation that performs I/O in the source; `save` additionally
returns a `SaveTrace` recording exactly the effectful calls it made
(temp-file creations, renames attempted, reload of the aggregate
container), so that claims about effects are statable.
-/

set_option linter.all false

/-- The three resolution variants, from `enum SpriteType` in main.rs. -/
inductive SpriteType
  | sd
  | hd
  | hd2
deriving DecidableEq, Repr

/-- Modelled from the spec: the codec's per-sprite metadata, "a 16-bit
unknown field, width, height" (`anim::SpriteValues`).  The u16 fields are
Nats; `!0` on u16 is 65535. -/
structure SpriteValues where
  unk2 : Nat
  width : Nat
  height : Nat
deriving DecidableEq, Repr

/-- Modelled from the spec: the codec's `TexChanges` payload (a new frame
geometry list plus new per-layer texture bytes), abstracted to opaque
tokens since no claim inspects its contents. -/
structure TexChanges where
  frames : Nat
  textures : Nat
deriving DecidableEq, Repr

/-- Errors are carried as plain messages (`failure::Error`). -/
abbrev Err := String

/-- A filesystem path, kept as directory plus file name so that
`temp_file_path` (which replaces only the file name) is faithful. -/
structure FsPath where
  dir : String
  file : String
deriving DecidableEq, Repr

/-- Modelled from the spec: the codec's `ValuesOrRef` (an SD slot either
owns explicit values or references another sprite index). -/
inductive ValuesOrRef
  | values (v : SpriteValues)
  | ref (i : Nat)
deriving DecidableEq, Repr

/-- Modelled from the spec: an aggregate-container sprite slot,
`sprite_slot(i) -> Owned | Reference(target)` (`anim::SpriteType`). -/
inductive SdSprite
  | ref (x : Nat)
  | data (d : SpriteValues)
deriving DecidableEq, Repr

/-- Modelled from the spec: the aggregate container ("MainSd"); per-sprite
frame lists and texture-size lists are opaque tokens. -/
structure MainSd where
  sprites : List SdSprite
  framesD : List (Option Nat)
  texSizesD : List (Option Nat)
deriving DecidableEq, Repr

/-- Modelled from the spec: `sprite_slot(i)` as `Owned | Reference`;
out of range yields none. -/
def MainSd.values_or_ref (sd : MainSd) (i : Nat) : Option ValuesOrRef :=
  (sd.sprites.get? i).map (fun s =>
    match s with
    | SdSprite.ref x => ValuesOrRef.ref x
    | SdSprite.data d => ValuesOrRef.values d)

/-- Modelled from the spec: `sprite_values(i) -> Option<Values>`. -/
def MainSd.sprite_values (sd : MainSd) (i : Nat) : Option SpriteValues :=
  match sd.sprites.get? i with
  | some (SdSprite.data d) => some d
  | _ => none

/-- Modelled from the spec: `frames(i)` as an opaque token. -/
def MainSd.frames (sd : MainSd) (i : Nat) : Option Nat :=
  (sd.framesD.get? i).join

/-- Modelled from the spec: `texture_sizes(i)` as an opaque token. -/
def MainSd.texture_sizes (sd : MainSd) (i : Nat) : Option Nat :=
  (sd.texSizesD.get? i).join

/-- Modelled from the spec: a decoded single-sprite container ("Anim");
only its sprite values matter to the claims. -/
structure Anim where
  sprite_values : SpriteValues
deriving DecidableEq, Repr

/-- What the filesystem holds at a path, as seen by `path.is_file()`,
`fs::File::open` and `anim::Anim::read`: not an existing regular file,
a file whose open fails, a file whose decode fails, or a decodable
single-sprite container. -/
inductive FsEntry
  | absent
  | openErr (e : Err)
  | decodeErr (e : Err)
  | anim (a : Anim)
deriving DecidableEq, Repr

/-- The ambient filesystem and codec-write oracle threaded through every
operation that performs I/O in the source. -/
structure Fs where
  entries : FsPath → FsEntry
  create : FsPath → Bool
  writeOk : FsPath → Bool
  renameOk : FsPath → FsPath → Bool
  mainsdAt : FsPath → Except Err MainSd

/-- `struct EditValues` from files.rs. -/
structure EditValues where
  values : SpriteValues
  tex_changes : Option TexChanges
deriving DecidableEq, Repr

/-- `enum Edit` from files.rs. -/
inductive Edit
  | ref (target : Nat)
  | values (v : EditValues)
deriving DecidableEq, Repr

/-- `enum SpriteFiles` from files.rs. -/
inductive SpriteFiles
  | animSet (image_id : Nat) (hd_filename : FsPath) (hd2_filename : FsPath) (name : String)
  | singleFile (p : FsPath)
  | mainSdOnly (image_id : Nat) (name : String)
deriving DecidableEq, Repr

/-- An entry of the open-file cache: `(anim::Anim, usize, SpriteType)`. -/
abbrev OpenFiles := List (Anim × Nat × SpriteType)

/-- The edit overlay, `HashMap<(usize, SpriteType), Edit>`, as an
association list (save iterates it in an arbitrary order, which the list
order makes explicit). -/
abbrev EditMap := List ((Nat × SpriteType) × Edit)

/-- `struct Files` from files.rs. -/
structure Files where
  sprites : List SpriteFiles
  mainsd_anim : Option (FsPath × MainSd)
  root_path : Option FsPath
  open_files : OpenFiles
  edits : EditMap
deriving DecidableEq, Repr

/-- HashMap-style lookup on the overlay association list. -/
def editsLookup : EditMap → (Nat × SpriteType) → Option Edit
  | [], _ => none
  | (k', e) :: rest, k => if k' = k then some e else editsLookup rest k

/-- HashMap-style insert: replaces the binding if the key is present,
appends otherwise. -/
def editsInsert : EditMap → (Nat × SpriteType) → Edit → EditMap
  | [], k, v => [(k, v)]
  | (k', e) :: rest, k, v =>
    if k' = k then (k, v) :: rest else (k', e) :: editsInsert rest k v

/-- HashMap-style removal of a key. -/
def editsRemove : EditMap → (Nat × SpriteType) → EditMap
  | [], _ => []
  | (k', e) :: rest, k =>
    if k' = k then editsRemove rest k else (k', e) :: editsRemove rest k

/-- `enum FileLocation` from files.rs (borrowed handles become values). -/
inductive FileLocation
  | mainSd (sprite : Nat) (sd : MainSd)
  | separate (a : Anim)
deriving DecidableEq, Repr

/-- `FileLocation::image_ref` (files.rs lines 183-193). -/
def FileLocation.image_ref : FileLocation → Option Nat
  | FileLocation.mainSd sprite sd =>
    (sd.sprites.get? sprite).bind (fun x =>
      match x with
      | SdSprite.ref x => some x
      | SdSprite.data _ => none)
  | FileLocation.separate _ => none

/-- `FileLocation::values_or_ref` (files.rs lines 155-160). -/
def FileLocation.values_or_ref : FileLocation → Option ValuesOrRef
  | FileLocation.mainSd sprite sd => MainSd.values_or_ref sd sprite
  | FileLocation.separate a => some (ValuesOrRef.values a.sprite_values)

/-- `FileLocation::sprite_values` (files.rs lines 176-181). -/
def FileLocation.sprite_values : FileLocation → Option SpriteValues
  | FileLocation.mainSd sprite sd => MainSd.sprite_values sd sprite
  | FileLocation.separate a => some a.sprite_values

/-- `separate_file_path` (files.rs lines 749-764): the catalogue path for
an HD/HD2 variant, provided it is an existing regular file. -/
def separate_file_path (fs : Fs) (sprites : List SpriteFiles) (sprite : Nat)
    (ty : SpriteType) : Option FsPath :=
  match sprites.get? sprite with
  | some (SpriteFiles.animSet _ hdF hd2F _) =>
    let path := match ty == SpriteType.hd2 with
      | false => hdF
      | true => hd2F
    match fs.entries path with
    | FsEntry.absent => none
    | _ => some path
  | _ => none

/-- `fs::File::open` followed by `anim::Anim::read` on a path. -/
def openAnimFile (fs : Fs) (path : FsPath) : Except Err Anim :=
  match fs.entries path with
  | FsEntry.absent => Except.error "open failed"
  | FsEntry.openErr e => Except.error e
  | FsEntry.decodeErr e => Except.error e
  | FsEntry.anim a => Except.ok a

/-- `file_location_hd` (files.rs lines 766-784): consult the open-file
cache first; otherwise resolve the expected path, open and decode it and
push it onto the cache.  A missing path is NotFound (`Ok(None)`), an
open or decode failure is an error. -/
def file_location_hd (fs : Fs) (open_files : OpenFiles)
    (sprites : List SpriteFiles) (sprite : Nat) (ty : SpriteType) :
    Except Err (Option FileLocation) × OpenFiles :=
  match open_files.find? (fun x => decide (x.2.1 = sprite ∧ x.2.2 = ty)) with
  | some entry => (Except.ok (some (FileLocation.separate entry.1)), open_files)
  | none =>
    match separate_file_path fs sprites sprite ty with
    | none => (Except.ok none, open_files)
    | some path =>
      match fs.entries path with
      | FsEntry.anim a =>
        (Except.ok (some (FileLocation.separate a)), open_files ++ [(a, sprite, ty)])
      | FsEntry.absent => (Except.error "open failed", open_files)
      | FsEntry.openErr e => (Except.error e, open_files)
      | FsEntry.decodeErr e => (Except.error e, open_files)

/-- `file_location` (files.rs lines 732-747). -/
def file_location (fs : Fs) (mainsd_anim : Option MainSd)
    (open_files : OpenFiles) (sprites : List SpriteFiles) (sprite : Nat)
    (ty : SpriteType) : Except Err (Option FileLocation) × OpenFiles :=
  match ty with
  | SpriteType.sd =>
    (Except.ok (mainsd_anim.map (fun x => FileLocation.mainSd sprite x)), open_files)
  | SpriteType.hd => file_location_hd fs open_files sprites sprite ty
  | SpriteType.hd2 => file_location_hd fs open_files sprites sprite ty

/-- The `file_location(...).ok().and_then(|x| x)` pattern shared by all
four mutation operations. -/
def locationOpt (fs : Fs) (mainsd_anim : Option MainSd)
    (open_files : OpenFiles) (sprites : List SpriteFiles) (sprite : Nat)
    (ty : SpriteType) : Option FileLocation × OpenFiles :=
  let pr := file_location fs mainsd_anim open_files sprites sprite ty
  (match pr.1 with
   | Except.ok x => x
   | Except.error _ => none, pr.2)

/-- `temp_file_path` (files.rs lines 720-730): prefix the file name. -/
def temp_file_path (orig : FsPath) : FsPath :=
  { dir := orig.dir, file := String.append "__temp__" orig.file }

/-- `Files::has_changes` (files.rs lines 628-630). -/
def Files.has_changes (f : Files) : Bool :=
  !f.edits.isEmpty

/-- `Files::set_ref_enabled` (files.rs lines 481-526). -/
def Files.set_ref_enabled (fs : Fs) (f : Files) (sprite : Nat)
    (ty : SpriteType) (enabled : Bool) : Files :=
  if ty ≠ SpriteType.sd then
    f
  else
    let pr := locationOpt fs (f.mainsd_anim.map Prod.snd) f.open_files
      f.sprites sprite ty
    let f1 : Files := { f with open_files := pr.2 }
    match pr.1.bind FileLocation.values_or_ref with
    | none => f1
    | some orig =>
      let orig_enabled : Bool :=
        match orig with
        | ValuesOrRef.ref _ => true
        | ValuesOrRef.values _ => false
      if orig_enabled = enabled then
        { f1 with edits := editsRemove f1.edits (sprite, ty) }
      else
        let value : Edit :=
          match enabled with
          | true => Edit.ref 0
          | false =>
            Edit.values
              { values := { unk2 := 65535, width := 0, height := 0 }
                tex_changes := none }
        { f1 with edits := editsInsert f1.edits (sprite, ty) value }

/-- `Files::set_ref_img` (files.rs lines 528-550). -/
def Files.set_ref_img (fs : Fs) (f : Files) (sprite : Nat) (ty : SpriteType)
    (image : Nat) : Files :=
  let pr := locationOpt fs (f.mainsd_anim.map Prod.snd) f.open_files
    f.sprites sprite ty
  let f1 : Files := { f with open_files := pr.2 }
  match pr.1 with
  | none => f1
  | some loc =>
    let unchanged : Bool := loc.image_ref = some image
    if unchanged then
      { f1 with edits := editsRemove f1.edits (sprite, ty) }
    else
      { f1 with edits := editsInsert f1.edits (sprite, ty) (Edit.ref image) }

/-- The `entry.or_insert_with(...)` seed shared by `set_tex_changes` and
`update_file` (files.rs lines 568-574 and 600-606). -/
def seedEdit (cur : Option Edit) (orig : ValuesOrRef) : Edit :=
  match cur with
  | some e => e
  | none =>
    match orig with
    | ValuesOrRef.values o => Edit.values { values := o, tex_changes := none }
    | ValuesOrRef.ref i => Edit.ref i

/-- `Files::set_tex_changes` (files.rs lines 552-578). -/
def Files.set_tex_changes (fs : Fs) (f : Files) (sprite : Nat)
    (ty : SpriteType) (changes : TexChanges) : Files :=
  let pr := locationOpt fs (f.mainsd_anim.map Prod.snd) f.open_files
    f.sprites sprite ty
  let f1 : Files := { f with open_files := pr.2 }
  match pr.1.bind FileLocation.values_or_ref with
  | none => f1
  | some orig =>
    let values := seedEdit (editsLookup f1.edits (sprite, ty)) orig
    let values' : Edit :=
      match values with
      | Edit.values vals => Edit.values { vals with tex_changes := some changes }
      | Edit.ref i => Edit.ref i
    { f1 with edits := editsInsert f1.edits (sprite, ty) values' }

/-- The collapse check of `Files::update_file` (files.rs lines 610-621):
does the edit equal what the unedited original yields? -/
def Edit.matchesOrig : Edit → ValuesOrRef → Bool
  | Edit.ref i, ValuesOrRef.ref j => i = j
  | Edit.ref _, _ => false
  | Edit.values vals, orig =>
    vals.tex_changes = none &&
      match orig with
      | ValuesOrRef.values o => vals.values = o
      | _ => false

/-- `Files::update_file` (files.rs lines 580-626). -/
def Files.update_file (fs : Fs) (f : Files) (sprite : Nat) (ty : SpriteType)
    (fn : SpriteValues → SpriteValues) : Files :=
  let pr := locationOpt fs (f.mainsd_anim.map Prod.snd) f.open_files
    f.sprites sprite ty
  let f1 : Files := { f with open_files := pr.2 }
  match pr.1.bind FileLocation.values_or_ref with
  | none => f1
  | some orig =>
    let values := seedEdit (editsLookup f1.edits (sprite, ty)) orig
    let values' : Edit :=
      match values with
      | Edit.values vals => Edit.values { vals with values := fn vals.values }
      | Edit.ref i => Edit.ref i
    let unchanged := Edit.matchesOrig values' orig
    let edits1 := editsInsert f1.edits (sprite, ty) values'
    if unchanged then
      { f1 with edits := editsRemove edits1 (sprite, ty) }
    else
      { f1 with edits := edits1 }

/-- `struct File` from files.rs: the composite view.  Frame lists, texture
payloads and texture-size lists are opaque tokens; the `image_ref` field is
the override (`Option<Option<u32>>`). -/
structure CompositeFile where
  location : FileLocation
  sprite_values : Option SpriteValues
  frames : Option Nat
  textures : Option Nat
  texture_sizes : Option Nat
  image_ref : Option (Option Nat)
deriving DecidableEq, Repr

/-- `File::image_ref` (files.rs lines 146-151). -/
def CompositeFile.imageRef (fl : CompositeFile) : Option Nat :=
  match fl.image_ref with
  | some r => r
  | none => fl.location.image_ref

/-- Outcome of `Files::file`: the `assert_eq!(ty, SpriteType::Sd)` on the
`Edit::Ref` path makes a panic observable, next to `Err`, `Ok(None)` and
`Ok(Some(file))`. -/
inductive FileResult
  | panic
  | err (e : Err)
  | noFile
  | ok (f : CompositeFile)
deriving DecidableEq, Repr

/-- The reference target the composite view reports, if the lookup
produced a file. -/
def FileResult.imageRefOf : FileResult → Option Nat
  | FileResult.ok fl => fl.imageRef
  | _ => none

/-- `Files::file` (files.rs lines 281-387).  Returns the result together
with the possibly grown open-file cache. -/
def Files.file (fs : Fs) (f : Files) (sprite : Nat) (ty : SpriteType) :
    FileResult × OpenFiles :=
  match editsLookup f.edits (sprite, ty) with
  | some (Edit.values x) =>
    let pr := file_location fs (f.mainsd_anim.map Prod.snd) f.open_files
      f.sprites sprite ty
    match pr.1 with
    | Except.ok (some loc) =>
      (FileResult.ok
        { location := loc
          sprite_values := some x.values
          frames := x.tex_changes.map TexChanges.frames
          textures := x.tex_changes.map TexChanges.textures
          texture_sizes := none
          image_ref := some none }, pr.2)
    | Except.ok none => (FileResult.noFile, pr.2)
    | Except.error e => (FileResult.err e, pr.2)
  | some (Edit.ref img_id) =>
    let ref_edits := editsLookup f.edits (img_id, ty)
    if ty ≠ SpriteType.sd then
      (FileResult.panic, f.open_files)
    else
      match f.mainsd_anim with
      | none => (FileResult.noFile, f.open_files)
      | some (_, mainsd) =>
        match ref_edits with
        | some (Edit.values x) =>
          (FileResult.ok
            { location := FileLocation.mainSd sprite mainsd
              sprite_values := some x.values
              frames := x.tex_changes.map TexChanges.frames
              textures := x.tex_changes.map TexChanges.textures
              texture_sizes := none
              image_ref := some (some img_id) }, f.open_files)
        | some (Edit.ref _) =>
          (FileResult.ok
            { location := FileLocation.mainSd sprite mainsd
              sprite_values := mainsd.sprite_values img_id
              frames := mainsd.frames img_id
              textures := none
              texture_sizes := mainsd.texture_sizes img_id
              image_ref := some (some img_id) }, f.open_files)
        | none =>
          (FileResult.ok
            { location := FileLocation.mainSd sprite mainsd
              sprite_values := mainsd.sprite_values img_id
              frames := mainsd.frames img_id
              textures := none
              texture_sizes := mainsd.texture_sizes img_id
              image_ref := some (some img_id) }, f.open_files)
  | none =>
    let pr := file_location fs (f.mainsd_anim.map Prod.snd) f.open_files
      f.sprites sprite ty
    match pr.1 with
    | Except.ok (some loc) =>
      match loc.image_ref with
      | some ref_img =>
        match editsLookup f.edits (ref_img, ty) with
        | some (Edit.values s) =>
          (FileResult.ok
            { location := loc
              sprite_values := some s.values
              frames := s.tex_changes.map TexChanges.frames
              textures := s.tex_changes.map TexChanges.textures
              texture_sizes := none
              image_ref := none }, pr.2)
        | _ =>
          (FileResult.ok
            { location := loc
              sprite_values := none
              frames := none
              textures := none
              texture_sizes := none
              image_ref := none }, pr.2)
      | none =>
        (FileResult.ok
          { location := loc
            sprite_values := none
            frames := none
            textures := none
            texture_sizes := none
            image_ref := none }, pr.2)
    | Except.ok none => (FileResult.noFile, pr.2)
    | Except.error e => (FileResult.err e, pr.2)

/-- Accumulator of the write phase of `save` (files.rs lines 635-697):
the local vectors plus a record of the temp files actually created. -/
structure WriteAcc where
  temp_files : List (FsPath × FsPath)
  sd_edits : List (Nat × ValuesOrRef)
  sd_textures : List (Nat × TexChanges)
  created : List FsPath
deriving DecidableEq, Repr

/-- The per-edit loop of the write phase of `save` (files.rs lines
638-679), iterating the overlay in its (arbitrary) order.  Returns the
first error, if any, together with the accumulator at that point. -/
def saveWriteLoop (fs : Fs) (sprites : List SpriteFiles) :
    EditMap → WriteAcc → Option Err × WriteAcc
  | [], acc => (none, acc)
  | ((sprite, ty), edit) :: rest, acc =>
    if ty ≠ SpriteType.sd then
      match separate_file_path fs sprites sprite ty with
      | none => (some "No path for sprite", acc)
      | some path =>
        match openAnimFile fs path with
        | Except.error e => (some e, acc)
        | Except.ok _ =>
          match edit with
          | Edit.ref _ => (some "Ref edit for a separate sprite", acc)
          | Edit.values _ =>
            let out_path := temp_file_path path
            if fs.create out_path then
              let acc1 := { acc with
                created := acc.created ++ [out_path]
                temp_files := acc.temp_files ++ [(out_path, path)] }
              if fs.writeOk out_path then
                saveWriteLoop fs sprites rest acc1
              else
                (some "write failed", acc1)
            else
              (some "Unable to create", acc)
    else
      let acc1 :=
        match edit with
        | Edit.ref r =>
          { acc with sd_edits := acc.sd_edits ++ [(sprite, ValuesOrRef.ref r)] }
        | Edit.values e =>
          let a := { acc with
            sd_edits := acc.sd_edits ++ [(sprite, ValuesOrRef.values e.values)] }
          match e.tex_changes with
          | some tex => { a with sd_textures := a.sd_textures ++ [(sprite, tex)] }
          | none => a
      saveWriteLoop fs sprites rest acc1

/-- The aggregate-container write of `save` (files.rs lines 680-697):
performed only when SD edits exist and the aggregate is open. -/
def saveSdWrite (fs : Fs) (mainsd_anim : Option (FsPath × MainSd))
    (acc : WriteAcc) : Option Err × WriteAcc :=
  if acc.sd_edits.isEmpty then
    (none, acc)
  else
    match mainsd_anim with
    | none => (none, acc)
    | some (sd_path, _) =>
      let out_path := temp_file_path sd_path
      if fs.create out_path then
        let acc1 := { acc with created := acc.created ++ [out_path] }
        if fs.writeOk out_path then
          (none, { acc1 with temp_files := acc1.temp_files ++ [(out_path, sd_path)] })
        else
          (some "write failed", acc1)
      else
        (some "Unable to create", acc)

/-- The commit loop of `save` (files.rs lines 701-706): rename each temp
file over its original, stopping at the first failure.  Returns the
attempted renames in order, the successful ones, and the final `result`
variable. -/
def renameLoop (fs : Fs) : List (FsPath × FsPath) →
    List (FsPath × FsPath) × List (FsPath × FsPath) × Except Err Unit
  | [] => ([], [], Except.ok ())
  | (temp, dest) :: rest =>
    if fs.renameOk temp dest then
      let r := renameLoop fs rest
      ((temp, dest) :: r.1, (temp, dest) :: r.2.1, r.2.2)
    else
      ([(temp, dest)], [], Except.error "rename failed")

/-- Trace of the effectful calls a `save` run made. -/
structure SaveTrace where
  created : List FsPath
  commitList : List (FsPath × FsPath)
  renAttempted : List (FsPath × FsPath)
  renOk : List (FsPath × FsPath)
  reloadAttempted : Bool
deriving DecidableEq, Repr

/-- `Files::save` (files.rs lines 632-717).  Returns the result, the new
state, and the trace of effects. -/
def Files.save (fs : Fs) (f : Files) : Except Err Unit × Files × SaveTrace :=
  let w := saveWriteLoop fs f.sprites f.edits
    { temp_files := [], sd_edits := [], sd_textures := [], created := [] }
  match w.1 with
  | some e =>
    (Except.error e, f,
      { created := w.2.created, commitList := [], renAttempted := [],
        renOk := [], reloadAttempted := false })
  | none =>
    let w2 := saveSdWrite fs f.mainsd_anim w.2
    match w2.1 with
    | some e =>
      (Except.error e, f,
        { created := w2.2.created, commitList := [], renAttempted := [],
          renOk := [], reloadAttempted := false })
    | none =>
      let temp_files := w2.2.temp_files
      let sd_path := f.mainsd_anim.map Prod.fst
      let ren := renameLoop fs temp_files
      let tr : SaveTrace :=
        { created := w2.2.created, commitList := temp_files,
          renAttempted := ren.1, renOk := ren.2.1,
          reloadAttempted := sd_path.isSome }
      match sd_path with
      | some sdp =>
        (match fs.mainsdAt sdp with
         | Except.error e =>
           (Except.error e,
             { f with open_files := [], mainsd_anim := none }, tr)
         | Except.ok sd2 =>
           match ren.2.2 with
           | Except.ok _ =>
             (Except.ok (),
               { f with
                   open_files := []
                   mainsd_anim := some (sdp, sd2)
                   edits := [] }, tr)
           | Except.error e =>
             (Except.error e,
               { f with open_files := [], mainsd_anim := some (sdp, sd2) }, tr))
      | none =>
        match ren.2.2 with
        | Except.ok _ =>
          (Except.ok (),
            { f with open_files := [], mainsd_anim := none, edits := [] }, tr)
        | Except.error e =>
          (Except.error e,
            { f with open_files := [], mainsd_anim := none }, tr)

theorem editsLookup_insert (l : EditMap) (k : Nat × SpriteType) (v : Edit)
    (q : Nat × SpriteType) :
    editsLookup (editsInsert l k v) q =
      if q = k then some v else editsLookup l q := by
  induction l with
  | nil =>
    by_cases h : q = k
    · subst h
      simp [editsInsert, editsLookup]
    · simp [editsInsert, editsLookup, h, Ne.symm h]
  | cons hd tl ih =>
    obtain ⟨a, b⟩ := hd
    by_cases h1 : a = k
    · subst h1
      by_cases h2 : q = a
      · subst h2
        simp [editsInsert, editsLookup]
      · simp [editsInsert, editsLookup, h2, Ne.symm h2]
    · by_cases h2 : a = q
      · subst h2
        simp [editsInsert, editsLookup, h1, Ne.symm h1]
      · simp [editsInsert, editsLookup, h1, h2, ih]

theorem editsLookup_remove (l : EditMap) (k q : Nat × SpriteType) :
    editsLookup (editsRemove l k) q =
      if q = k then none else editsLookup l q := by
  induction l with
  | nil =>
    by_cases h : q = k <;> simp [editsRemove, editsLookup, h]
  | cons hd tl ih =>
    obtain ⟨a, b⟩ := hd
    by_cases h1 : a = k
    · subst h1
      by_cases h2 : q = a
      · subst h2
        simp [editsRemove, editsLookup, ih]
      · simp [editsRemove, editsLookup, h2, Ne.symm h2, ih]
    · by_cases h2 : a = q
      · subst h2
        simp [editsRemove, editsLookup, h1, Ne.symm h1, ih]
      · simp [editsRemove, editsLookup, h1, h2, ih]

theorem editsInsert_self (l : EditMap) (k : Nat × SpriteType) (v : Edit)
    (h : editsLookup l k = some v) : editsInsert l k v = l := by
  induction l with
  | nil => simp [editsLookup] at h
  | cons hd tl ih =>
    obtain ⟨a, b⟩ := hd
    simp only [editsLookup] at h
    by_cases h1 : a = k
    · rw [if_pos h1] at h
      cases h
      subst h1
      simp [editsInsert]
    · rw [if_neg h1] at h
      simp [editsInsert, h1, ih h]

/-- What resolving a key against the unedited original state yields,
expressed over the filesystem alone (no open-file cache): the SD variant
reads the aggregate container, the HD/HD2 variants read (and decode) the
catalogue path. -/
def origResolve (fs : Fs) (msd : Option MainSd) (sprites : List SpriteFiles)
    (sprite : Nat) (ty : SpriteType) : Option ValuesOrRef :=
  match ty with
  | SpriteType.sd => msd.bind (fun sd => MainSd.values_or_ref sd sprite)
  | _ =>
    (separate_file_path fs sprites sprite ty).bind (fun p =>
      match fs.entries p with
      | FsEntry.anim a => some (ValuesOrRef.values a.sprite_values)
      | _ => none)

/-- Consistency of the open-file cache with the filesystem: every cached
entry is the decode of its catalogue path, and is keyed by a non-SD
variant.  Holds in every state reachable with a fixed filesystem. -/
def cacheOk (fs : Fs) (sprites : List SpriteFiles) (of : OpenFiles) : Prop :=
  ∀ e ∈ of, e.2.2 ≠ SpriteType.sd ∧
    ∃ p, separate_file_path fs sprites e.2.1 e.2.2 = some p ∧
      fs.entries p = FsEntry.anim e.1

theorem cacheOk_nil (fs : Fs) (sprites : List SpriteFiles) :
    cacheOk fs sprites [] := by
  intro e he
  simp at he

theorem locationOpt_sd (fs : Fs) (msd : Option MainSd) (of : OpenFiles)
    (sprites : List SpriteFiles) (s : Nat) :
    locationOpt fs msd of sprites s SpriteType.sd =
      (msd.map (fun x => FileLocation.mainSd s x), of) := by
  cases msd <;> rfl

/-- Case analysis on a non-SD resolution: either a cache hit, or a miss
with the four filesystem outcomes. -/
theorem locationOpt_hd_cases (fs : Fs) (msd : Option MainSd) (of : OpenFiles)
    (sprites : List SpriteFiles) (s : Nat) (ty : SpriteType)
    (hty : ty ≠ SpriteType.sd) :
    (∃ entry, List.find? (fun x => decide (x.2.1 = s ∧ x.2.2 = ty)) of =
        some entry ∧
      locationOpt fs msd of sprites s ty =
        (some (FileLocation.separate entry.1), of)) ∨
    (List.find? (fun x => decide (x.2.1 = s ∧ x.2.2 = ty)) of = none ∧
      ((separate_file_path fs sprites s ty = none ∧
         locationOpt fs msd of sprites s ty = (none, of)) ∨
       (∃ p, separate_file_path fs sprites s ty = some p ∧
         ((∃ a, fs.entries p = FsEntry.anim a ∧
            locationOpt fs msd of sprites s ty =
              (some (FileLocation.separate a), of ++ [(a, s, ty)])) ∨
          (¬ (∃ a, fs.entries p = FsEntry.anim a) ∧
            locationOpt fs msd of sprites s ty = (none, of)))))) := by
  have hloc : locationOpt fs msd of sprites s ty =
      (match (file_location_hd fs of sprites s ty).1 with
       | Except.ok x => x
       | Except.error _ => none, (file_location_hd fs of sprites s ty).2) := by
    cases ty with
    | sd => exact absurd rfl hty
    | hd => rfl
    | hd2 => rfl
  cases hfind : List.find? (fun x => decide (x.2.1 = s ∧ x.2.2 = ty)) of with
  | some entry =>
    left
    refine ⟨entry, rfl, ?_⟩
    rw [hloc]
    have : file_location_hd fs of sprites s ty =
        (Except.ok (some (FileLocation.separate entry.1)), of) := by
      unfold file_location_hd
      simp only [hfind]
    rw [this]
  | none =>
    right
    refine ⟨rfl, ?_⟩
    cases hsep : separate_file_path fs sprites s ty with
    | none =>
      left
      refine ⟨rfl, ?_⟩
      rw [hloc]
      have : file_location_hd fs of sprites s ty = (Except.ok none, of) := by
        unfold file_location_hd
        simp only [hfind, hsep]
      rw [this]
    | some p =>
      right
      refine ⟨p, rfl, ?_⟩
      cases hent : fs.entries p with
      | anim a =>
        left
        refine ⟨a, rfl, ?_⟩
        rw [hloc]
        have : file_location_hd fs of sprites s ty =
            (Except.ok (some (FileLocation.separate a)), of ++ [(a, s, ty)]) := by
          unfold file_location_hd
          simp only [hfind, hsep, hent]
        rw [this]
      | absent =>
        right
        refine ⟨by simp [hent], ?_⟩
        rw [hloc]
        have : file_location_hd fs of sprites s ty =
            (Except.error "open failed", of) := by
          unfold file_location_hd
          simp only [hfind, hsep, hent]
        rw [this]
      | openErr e =>
        right
        refine ⟨by simp [hent], ?_⟩
        rw [hloc]
        have : file_location_hd fs of sprites s ty = (Except.error e, of) := by
          unfold file_location_hd
          simp only [hfind, hsep, hent]
        rw [this]
      | decodeErr e =>
        right
        refine ⟨by simp [hent], ?_⟩
        rw [hloc]
        have : file_location_hd fs of sprites s ty = (Except.error e, of) := by
          unfold file_location_hd
          simp only [hfind, hsep, hent]
        rw [this]

/-- Under cache consistency, the original the mutation operations compute
through the resolver coincides with the pure filesystem resolution. -/
theorem origOf_eq (fs : Fs) (msd : Option MainSd) (of : OpenFiles)
    (sprites : List SpriteFiles) (s : Nat) (ty : SpriteType)
    (h : cacheOk fs sprites of) :
    ((locationOpt fs msd of sprites s ty).1).bind FileLocation.values_or_ref =
      origResolve fs msd sprites s ty := by
  by_cases hty : ty = SpriteType.sd
  · subst hty
    rw [locationOpt_sd]
    cases msd <;> simp [origResolve, FileLocation.values_or_ref]
  · have hres : origResolve fs msd sprites s ty =
        (separate_file_path fs sprites s ty).bind (fun p =>
          match fs.entries p with
          | FsEntry.anim a => some (ValuesOrRef.values a.sprite_values)
          | _ => none) := by
      cases ty with
      | sd => exact absurd rfl hty
      | hd => rfl
      | hd2 => rfl
    rcases locationOpt_hd_cases fs msd of sprites s ty hty with
      ⟨entry, hfind, hloc⟩ | ⟨hfind, hrest⟩
    · have hmem := List.mem_of_find?_eq_some hfind
      have hpred := List.find?_some hfind
      simp only [decide_eq_true_eq] at hpred
      obtain ⟨hs, hty2⟩ := hpred
      obtain ⟨-, p, hp, hent⟩ := h entry hmem
      rw [hs, hty2] at hp
      rw [hloc, hres, hp]
      simp [hent, FileLocation.values_or_ref]
    · rcases hrest with ⟨hsep, hloc⟩ | ⟨p, hsep, hrest2⟩
      · rw [hloc, hres, hsep]
        rfl
      · rcases hrest2 with ⟨a, hent, hloc⟩ | ⟨hnota, hloc⟩
        · rw [hloc, hres, hsep]
          simp [hent, FileLocation.values_or_ref]
        · rw [hloc, hres, hsep]
          cases hent : fs.entries p with
          | anim a => exact absurd ⟨a, hent⟩ hnota
          | absent => simp [hent]
          | openErr e => simp [hent]
          | decodeErr e => simp [hent]

/-- Resolution preserves cache consistency: the only cache mutation is a
push of a freshly decoded catalogue file. -/
theorem cacheOk_locationOpt (fs : Fs) (msd : Option MainSd) (of : OpenFiles)
    (sprites : List SpriteFiles) (s : Nat) (ty : SpriteType)
    (h : cacheOk fs sprites of) :
    cacheOk fs sprites (locationOpt fs msd of sprites s ty).2 := by
  by_cases hty : ty = SpriteType.sd
  · subst hty
    rw [locationOpt_sd]
    exact h
  · rcases locationOpt_hd_cases fs msd of sprites s ty hty with
      ⟨entry, hfind, hloc⟩ | ⟨hfind, hrest⟩
    · rw [hloc]
      exact h
    · rcases hrest with ⟨hsep, hloc⟩ | ⟨p, hsep, hrest2⟩
      · rw [hloc]
        exact h
      · rcases hrest2 with ⟨a, hent, hloc⟩ | ⟨hnota, hloc⟩
        · rw [hloc]
          intro e he
          simp only [List.mem_append, List.mem_singleton] at he
          rcases he with he | he
          · exact h e he
          · subst he
            exact ⟨hty, p, hsep, hent⟩
        · rw [hloc]
          exact h

/-- The collapse invariant, restricted to explicit `Values` entries: every
such overlay entry differs from what resolving its key against the
unedited original yields. -/
def InvE (fs : Fs) (msd : Option MainSd) (sprites : List SpriteFiles)
    (edits : EditMap) : Prop :=
  ∀ k ev, editsLookup edits k = some (Edit.values ev) →
    ∀ o, origResolve fs msd sprites k.1 k.2 = some o →
      Edit.matchesOrig (Edit.values ev) o = false

/-- The inductive state invariant carried through the mutation
operations: cache consistency plus the collapse invariant. -/
def StateOk (fs : Fs) (f : Files) : Prop :=
  cacheOk fs f.sprites f.open_files ∧
  InvE fs (f.mainsd_anim.map Prod.snd) f.sprites f.edits

theorem matchesOrig_tex_some (v : SpriteValues) (t : TexChanges)
    (o : ValuesOrRef) :
    Edit.matchesOrig (Edit.values { values := v, tex_changes := some t }) o =
      false := by
  cases o <;> simp [Edit.matchesOrig]

theorem matchesOrig_values_ref (ev : EditValues) (t : Nat) :
    Edit.matchesOrig (Edit.values ev) (ValuesOrRef.ref t) = false := by
  simp [Edit.matchesOrig]

theorem origResolve_sd_eq (fs : Fs) (msd : Option MainSd)
    (sprites : List SpriteFiles) (s : Nat) :
    ((msd.map (fun x => FileLocation.mainSd s x)).bind
        FileLocation.values_or_ref) =
      origResolve fs msd sprites s SpriteType.sd := by
  cases msd <;> rfl

theorem stateOk_set_ref_img (fs : Fs) (f : Files) (s : Nat) (ty : SpriteType)
    (img : Nat) (h : StateOk fs f) :
    StateOk fs (Files.set_ref_img fs f s ty img) := by
  obtain ⟨hc, hi⟩ := h
  unfold Files.set_ref_img
  dsimp only
  split
  · exact ⟨cacheOk_locationOpt fs _ _ _ _ _ hc, hi⟩
  · split
    · refine ⟨cacheOk_locationOpt fs _ _ _ _ _ hc, ?_⟩
      intro k ev hlook o ho
      rw [editsLookup_remove] at hlook
      by_cases hk : k = (s, ty)
      · rw [if_pos hk] at hlook
        cases hlook
      · rw [if_neg hk] at hlook
        exact hi k ev hlook o ho
    · refine ⟨cacheOk_locationOpt fs _ _ _ _ _ hc, ?_⟩
      intro k ev hlook o ho
      rw [editsLookup_insert] at hlook
      by_cases hk : k = (s, ty)
      · rw [if_pos hk] at hlook
        cases hlook
      · rw [if_neg hk] at hlook
        exact hi k ev hlook o ho

theorem stateOk_set_ref_enabled (fs : Fs) (f : Files) (s : Nat)
    (ty : SpriteType) (b : Bool) (h : StateOk fs f) :
    StateOk fs (Files.set_ref_enabled fs f s ty b) := by
  obtain ⟨hc, hi⟩ := h
  unfold Files.set_ref_enabled
  split
  · exact ⟨hc, hi⟩
  · rename_i hty
    have hty2 : ty = SpriteType.sd := not_not.mp hty
    subst hty2
    rw [locationOpt_sd]
    dsimp only
    split
    · exact ⟨hc, hi⟩
    · rename_i orig horig
      split
      · refine ⟨hc, ?_⟩
        intro k ev hlook o ho
        rw [editsLookup_remove] at hlook
        by_cases hk : k = (s, SpriteType.sd)
        · rw [if_pos hk] at hlook
          cases hlook
        · rw [if_neg hk] at hlook
          exact hi k ev hlook o ho
      · rename_i hne
        refine ⟨hc, ?_⟩
        intro k ev hlook o ho
        rw [editsLookup_insert] at hlook
        by_cases hk : k = (s, SpriteType.sd)
        · rw [if_pos hk] at hlook
          cases b with
          | true => cases hlook
          | false =>
            cases hlook
            cases orig with
            | values v =>
              exact absurd rfl hne
            | ref t =>
              have horig2 : origResolve fs (f.mainsd_anim.map Prod.snd)
                  f.sprites s SpriteType.sd = some (ValuesOrRef.ref t) := by
                rw [← origResolve_sd_eq fs _ f.sprites s]
                exact horig
              rw [hk] at ho
              rw [horig2] at ho
              cases ho
              exact matchesOrig_values_ref _ t
        · rw [if_neg hk] at hlook
          exact hi k ev hlook o ho

theorem stateOk_set_tex_changes (fs : Fs) (f : Files) (s : Nat)
    (ty : SpriteType) (ch : TexChanges) (h : StateOk fs f) :
    StateOk fs (Files.set_tex_changes fs f s ty ch) := by
  obtain ⟨hc, hi⟩ := h
  unfold Files.set_tex_changes
  dsimp only
  split
  · exact ⟨cacheOk_locationOpt fs _ _ _ _ _ hc, hi⟩
  · rename_i orig horig
    refine ⟨cacheOk_locationOpt fs _ _ _ _ _ hc, ?_⟩
    intro k ev hlook o ho
    rw [editsLookup_insert] at hlook
    by_cases hk : k = (s, ty)
    · rw [if_pos hk] at hlook
      cases hseed : seedEdit (editsLookup f.edits (s, ty)) orig with
      | ref i =>
        rw [hseed] at hlook
        cases hlook
      | values vals =>
        rw [hseed] at hlook
        cases hlook
        exact matchesOrig_tex_some vals.values ch o
    · rw [if_neg hk] at hlook
      exact hi k ev hlook o ho

theorem stateOk_update_file (fs : Fs) (f : Files) (s : Nat) (ty : SpriteType)
    (fn : SpriteValues → SpriteValues) (h : StateOk fs f) :
    StateOk fs (Files.update_file fs f s ty fn) := by
  obtain ⟨hc, hi⟩ := h
  unfold Files.update_file
  dsimp only
  split
  · exact ⟨cacheOk_locationOpt fs _ _ _ _ _ hc, hi⟩
  · rename_i orig horig
    split
    · refine ⟨cacheOk_locationOpt fs _ _ _ _ _ hc, ?_⟩
      intro k ev hlook o ho
      rw [editsLookup_remove, editsLookup_insert] at hlook
      by_cases hk : k = (s, ty)
      · rw [if_pos hk] at hlook
        cases hlook
      · rw [if_neg hk, if_neg hk] at hlook
        exact hi k ev hlook o ho
    · rename_i hne
      refine ⟨cacheOk_locationOpt fs _ _ _ _ _ hc, ?_⟩
      intro k ev hlook o ho
      rw [editsLookup_insert] at hlook
      by_cases hk : k = (s, ty)
      · rw [if_pos hk] at hlook
        have horig2 : origResolve fs (f.mainsd_anim.map Prod.snd)
            f.sprites s ty = some orig := by
          rw [← origOf_eq fs (f.mainsd_anim.map Prod.snd) f.open_files
            f.sprites s ty hc]
          exact horig
        rw [hk] at ho
        rw [horig2] at ho
        cases ho
        have hval : (match seedEdit (editsLookup f.edits (s, ty)) orig with
            | Edit.values vals =>
              Edit.values { vals with values := fn vals.values }
            | Edit.ref i => Edit.ref i) = Edit.values ev :=
          Option.some.inj hlook
        have hne2 : ¬ Edit.matchesOrig (Edit.values ev) orig = true := by
          rw [← hval]
          exact hne
        cases hmo : Edit.matchesOrig (Edit.values ev) orig with
        | true => exact absurd hmo hne2
        | false => rfl
      · rw [if_neg hk] at hlook
        exact hi k ev hlook o ho

/-- States reachable from a freshly loaded `Files` value (empty overlay,
empty open-file cache, as produced by `init`) via any sequence of the four
mutation operations, over a fixed filesystem. -/
inductive Reachable (fs : Fs) : Files → Prop
  | fresh (f : Files) : f.edits = [] → f.open_files = [] → Reachable fs f
  | step_ref_enabled {f : Files} (s : Nat) (ty : SpriteType) (b : Bool) :
      Reachable fs f → Reachable fs (Files.set_ref_enabled fs f s ty b)
  | step_ref_img {f : Files} (s : Nat) (ty : SpriteType) (img : Nat) :
      Reachable fs f → Reachable fs (Files.set_ref_img fs f s ty img)
  | step_tex_changes {f : Files} (s : Nat) (ty : SpriteType) (ch : TexChanges) :
      Reachable fs f → Reachable fs (Files.set_tex_changes fs f s ty ch)
  | step_update_file {f : Files} (s : Nat) (ty : SpriteType)
      (fn : SpriteValues → SpriteValues) :
      Reachable fs f → Reachable fs (Files.update_file fs f s ty fn)

theorem stateOk_of_reachable (fs : Fs) (f : Files) (h : Reachable fs f) :
    StateOk fs f := by
  induction h with
  | fresh f he ho =>
    constructor
    · rw [ho]
      exact cacheOk_nil fs f.sprites
    · rw [he]
      intro k ev hlook o hor
      simp [editsLookup] at hlook
  | step_ref_enabled s ty b _ ih => exact stateOk_set_ref_enabled _ _ _ _ _ ih
  | step_ref_img s ty img _ ih => exact stateOk_set_ref_img _ _ _ _ _ ih
  | step_tex_changes s ty ch _ ih => exact stateOk_set_tex_changes _ _ _ _ _ ih
  | step_update_file s ty fn _ ih => exact stateOk_update_file _ _ _ _ _ ih

theorem renameLoop_cons_true (fs : Fs) (t d : FsPath)
    (tl : List (FsPath × FsPath)) (hb : fs.renameOk t d = true) :
    renameLoop fs ((t, d) :: tl) =
      ((t, d) :: (renameLoop fs tl).1,
        (t, d) :: (renameLoop fs tl).2.1, (renameLoop fs tl).2.2) := by
  simp [renameLoop, hb]

theorem renameLoop_cons_false (fs : Fs) (t d : FsPath)
    (tl : List (FsPath × FsPath)) (hb : fs.renameOk t d = false) :
    renameLoop fs ((t, d) :: tl) = ([(t, d)], [], Except.error "rename failed") := by
  simp [renameLoop, hb]

theorem renameLoop_take (fs : Fs) (l : List (FsPath × FsPath)) :
    (renameLoop fs l).1 = l.take (renameLoop fs l).1.length := by
  induction l with
  | nil => rfl
  | cons hd tl ih =>
    obtain ⟨t, d⟩ := hd
    cases hb : fs.renameOk t d with
    | true =>
      rw [renameLoop_cons_true fs t d tl hb]
      simp only [List.length_cons, List.take_succ_cons]
      exact congrArg (List.cons (t, d)) ih
    | false =>
      rw [renameLoop_cons_false fs t d tl hb]
      rfl

theorem renameLoop_cases (fs : Fs) (l : List (FsPath × FsPath)) :
    ((renameLoop fs l).2.2 = Except.ok () ∧
      (renameLoop fs l).2.1 = (renameLoop fs l).1) ∨
    (∃ last, (renameLoop fs l).2.2 = Except.error "rename failed" ∧
      (renameLoop fs l).1 = (renameLoop fs l).2.1 ++ [last] ∧
      fs.renameOk last.1 last.2 = false) := by
  induction l with
  | nil => exact Or.inl ⟨rfl, rfl⟩
  | cons hd tl ih =>
    obtain ⟨t, d⟩ := hd
    cases hb : fs.renameOk t d with
    | true =>
      rw [renameLoop_cons_true fs t d tl hb]
      rcases ih with ⟨hok, heq⟩ | ⟨last, herr, heq, hf⟩
      · exact Or.inl ⟨hok, by rw [heq]⟩
      · refine Or.inr ⟨last, herr, ?_, hf⟩
        rw [heq]
        rfl
    | false =>
      rw [renameLoop_cons_false fs t d tl hb]
      exact Or.inr ⟨(t, d), rfl, rfl, hb⟩

theorem saveWriteLoop_isSome (fs : Fs) (sprites : List SpriteFiles) :
    ∀ (l : EditMap) (acc : WriteAcc) (k : Nat × SpriteType) (r : Nat),
      k.2 ≠ SpriteType.sd → editsLookup l k = some (Edit.ref r) →
      ((saveWriteLoop fs sprites l acc).1).isSome = true := by
  intro l
  induction l with
  | nil =>
    intro acc k r hk hl
    simp [editsLookup] at hl
  | cons hd tl ih =>
    intro acc k r hk hl
    obtain ⟨⟨s0, ty0⟩, e0⟩ := hd
    simp only [editsLookup] at hl
    by_cases hkey : (s0, ty0) = k
    · rw [if_pos hkey] at hl
      cases hl
      cases hkey
      simp only [saveWriteLoop, if_pos hk]
      cases hsep : separate_file_path fs sprites s0 ty0 with
      | none => simp
      | some path =>
        dsimp only
        cases hopen : openAnimFile fs path with
        | error e => rfl
        | ok a => rfl
    · rw [if_neg hkey] at hl
      simp only [saveWriteLoop]
      by_cases hty0 : ty0 ≠ SpriteType.sd
      · rw [if_pos hty0]
        cases hsep : separate_file_path fs sprites s0 ty0 with
        | none => simp
        | some path =>
          dsimp only
          cases hopen : openAnimFile fs path with
          | error e => rfl
          | ok a =>
            dsimp only
            cases e0 with
            | ref t => rfl
            | values v =>
              dsimp only
              by_cases hcr : fs.create (temp_file_path path) = true
              · rw [if_pos hcr]
                by_cases hwr : fs.writeOk (temp_file_path path) = true
                · rw [if_pos hwr]
                  exact ih _ k r hk hl
                · rw [if_neg hwr]
                  rfl
              · rw [if_neg hcr]
                rfl
      · rw [if_neg hty0]
        exact ih _ k r hk hl

/-- C2 (amended): during save(), renames are attempted exactly as a prefix
of the commit list, stopping at the first failure, whose error makes
save() fail; renames already performed are not rolled back (they remain in
the success list, and no reverse rename exists); and the edits overlay is
cleared if and only if save() returns Ok — in particular, on any rename
failure (and also on a write-phase or reload failure) the overlay still
contains all pending edits.  (The original claim's "cleared iff every
rename succeeded" fails when the save errors before or after the rename
loop; see the counterexample.) -/
theorem claim_C2 (fs : Fs) (f : Files) :
    ((Files.save fs f).2.2.renAttempted =
      (Files.save fs f).2.2.commitList.take
        (Files.save fs f).2.2.renAttempted.length) ∧
    ((Files.save fs f).2.2.renOk = (Files.save fs f).2.2.renAttempted ∨
      (∃ last, (Files.save fs f).2.2.renAttempted =
          (Files.save fs f).2.2.renOk ++ [last] ∧
        fs.renameOk last.1 last.2 = false ∧
        (Files.save fs f).1 ≠ Except.ok () ∧
        (Files.save fs f).2.1.edits = f.edits)) ∧
    ((Files.save fs f).1 = Except.ok () → (Files.save fs f).2.1.edits = []) ∧
    ((Files.save fs f).1 ≠ Except.ok () → (Files.save fs f).2.1.edits = f.edits) := by
  unfold Files.save
  dsimp only
  cases hw : (saveWriteLoop fs f.sprites f.edits
      { temp_files := [], sd_edits := [], sd_textures := [], created := [] }).1 with
  | some e =>
    exact ⟨rfl, Or.inl rfl, fun h => Except.noConfusion h, fun _ => rfl⟩
  | none =>
    cases hw2 : (saveSdWrite fs f.mainsd_anim
        (saveWriteLoop fs f.sprites f.edits
          { temp_files := [], sd_edits := [], sd_textures := [], created := [] }).2).1 with
    | some e =>
      exact ⟨rfl, Or.inl rfl, fun h => Except.noConfusion h, fun _ => rfl⟩
    | none =>
      generalize (saveSdWrite fs f.mainsd_anim
        (saveWriteLoop fs f.sprites f.edits
          { temp_files := [], sd_edits := [], sd_textures := [],
            created := [] }).2).2.temp_files = tf
      cases hm : f.mainsd_anim with
      | none =>
        dsimp only [Option.map]
        rcases renameLoop_cases fs tf with ⟨hok, heq⟩ | ⟨last, herr, heq, hfail⟩
        · rw [hok]
          exact ⟨renameLoop_take fs tf, Or.inl heq, fun _ => rfl,
            fun h => absurd rfl h⟩
        · rw [herr]
          exact ⟨renameLoop_take fs tf,
            Or.inr ⟨last, heq, hfail, fun h => Except.noConfusion h, rfl⟩,
            fun h => Except.noConfusion h, fun _ => rfl⟩
      | some psd =>
        obtain ⟨p, sd⟩ := psd
        dsimp only [Option.map]
        cases hms : fs.mainsdAt p with
        | error e =>
          rcases renameLoop_cases fs tf with ⟨hok, heq⟩ | ⟨last, herr, heq, hfail⟩
          · exact ⟨renameLoop_take fs tf, Or.inl heq,
              fun h => Except.noConfusion h, fun _ => rfl⟩
          · exact ⟨renameLoop_take fs tf,
              Or.inr ⟨last, heq, hfail, fun h => Except.noConfusion h, rfl⟩,
              fun h => Except.noConfusion h, fun _ => rfl⟩
        | ok sd2 =>
          rcases renameLoop_cases fs tf with ⟨hok, heq⟩ | ⟨last, herr, heq, hfail⟩
          · rw [hok]
            exact ⟨renameLoop_take fs tf, Or.inl heq, fun _ => rfl,
              fun h => absurd rfl h⟩
          · rw [herr]
            exact ⟨renameLoop_take fs tf,
              Or.inr ⟨last, heq, hfail, fun h => Except.noConfusion h, rfl⟩,
              fun h => Except.noConfusion h, fun _ => rfl⟩

theorem saveSdWrite_nil (fs : Fs) (m : Option (FsPath × MainSd))
    (acc : WriteAcc) (h : acc.sd_edits = []) :
    saveSdWrite fs m acc = (none, acc) := by
  unfold saveSdWrite
  rw [h]
  rfl

/-- C3 (amended): save() with an empty edits overlay creates no temporary
files and performs no renames, but it does not leave the aggregate
container untouched: whenever an aggregate container is open, save()
closes it and reloads it from disk unconditionally — not only when it was
touched by the save — succeeding or failing with the reload.  (The
original claim's "left open and unchanged" and "reloaded only if touched"
fail; see the counterexample.) -/
theorem claim_C3 (fs : Fs) (f : Files) (h : f.edits = []) :
    (Files.save fs f).2.2.created = [] ∧
    (Files.save fs f).2.2.commitList = [] ∧
    (Files.save fs f).2.2.renAttempted = [] ∧
    (Files.save fs f).2.2.reloadAttempted = f.mainsd_anim.isSome ∧
    (Files.save fs f).2.1.edits = [] ∧
    (Files.save fs f).2.1.sprites = f.sprites ∧
    (f.mainsd_anim = none →
      (Files.save fs f).1 = Except.ok () ∧
      (Files.save fs f).2.1.mainsd_anim = none) ∧
    (∀ p sd, f.mainsd_anim = some (p, sd) →
      ((∃ e, fs.mainsdAt p = Except.error e ∧
        (Files.save fs f).1 = Except.error e ∧
        (Files.save fs f).2.1.mainsd_anim = none) ∨
       (∃ sd2, fs.mainsdAt p = Except.ok sd2 ∧
        (Files.save fs f).1 = Except.ok () ∧
        (Files.save fs f).2.1.mainsd_anim = some (p, sd2)))) := by
  unfold Files.save
  rw [h]
  dsimp only [saveWriteLoop]
  rw [saveSdWrite_nil fs f.mainsd_anim
    { temp_files := [], sd_edits := [], sd_textures := [], created := [] } rfl]
  dsimp only [renameLoop, Option.map]
  cases hm : f.mainsd_anim with
  | none =>
    exact ⟨rfl, rfl, rfl, rfl, rfl, rfl, fun _ => ⟨rfl, rfl⟩,
      fun p sd hps => Option.noConfusion hps⟩
  | some psd =>
    obtain ⟨p, sd⟩ := psd
    dsimp only [Option.map]
    cases hms : fs.mainsdAt p with
    | error e =>
      refine ⟨rfl, rfl, rfl, rfl, rfl, rfl,
        fun hnone => Option.noConfusion hnone, ?_⟩
      intro p' sd' hps
      cases hps
      exact Or.inl ⟨e, hms, rfl, rfl⟩
    | ok sd2 =>
      refine ⟨rfl, rfl, rfl, rfl, rfl, rfl,
        fun hnone => Option.noConfusion hnone, ?_⟩
      intro p' sd' hps
      cases hps
      exact Or.inr ⟨sd2, hms, rfl, rfl⟩

/-- C4 (amended): a Ref edit keyed by an HD or HD2 variant makes save()
fail with a structural error during the write phase, before the commit
phase: no rename is attempted, and the Files state (overlay, caches,
aggregate handle) is returned unchanged.  However, temporary files may
already have been created for edits processed earlier in the overlay
iteration order, so "no temporary file is created" does not hold in
general; see the counterexample. -/
theorem claim_C4 (fs : Fs) (f : Files) (k : Nat × SpriteType) (r : Nat)
    (hk : k.2 ≠ SpriteType.sd)
    (hl : editsLookup f.edits k = some (Edit.ref r)) :
    (Files.save fs f).1 ≠ Except.ok () ∧
    (Files.save fs f).2.2.renAttempted = [] ∧
    (Files.save fs f).2.2.renOk = [] ∧
    (Files.save fs f).2.1 = f := by
  have hs := saveWriteLoop_isSome fs f.sprites f.edits
    { temp_files := [], sd_edits := [], sd_textures := [], created := [] } k r hk hl
  unfold Files.save
  dsimp only
  cases hw : (saveWriteLoop fs f.sprites f.edits
      { temp_files := [], sd_edits := [], sd_textures := [], created := [] }).1 with
  | none =>
    rw [hw] at hs
    simp at hs
  | some e =>
    exact ⟨fun hh => Except.noConfusion hh, rfl, rfl, rfl⟩

deriving instance DecidableEq for Except

def v1 : SpriteValues := { unk2 := 1, width := 2, height := 3 }

def v2 : SpriteValues := { unk2 := 4, width := 5, height := 6 }

def anim1 : Anim := { sprite_values := v1 }

def pHd0 : FsPath := { dir := "anim", file := "main_000.anim" }

def pHd20 : FsPath := { dir := "HD2/anim", file := "main_000.anim" }

def pHd1 : FsPath := { dir := "anim", file := "main_001.anim" }

def pHd21 : FsPath := { dir := "HD2/anim", file := "main_001.anim" }

def pSd : FsPath := { dir := "SD", file := "mainSD.anim" }

/-- Aggregate container in which sprite 0 is a reference to sprite 1. -/
def sdRef : MainSd :=
  { sprites := [SdSprite.ref 1, SdSprite.data v2]
    framesD := [none, none]
    texSizesD := [none, none] }

/-- Aggregate container in which both sprites own their data. -/
def sdData : MainSd :=
  { sprites := [SdSprite.data v1, SdSprite.data v2]
    framesD := [none, none]
    texSizesD := [none, none] }

def catFix : List SpriteFiles :=
  [SpriteFiles.animSet 0 pHd0 pHd20 "s0", SpriteFiles.animSet 1 pHd1 pHd21 "s1"]

def texFix : TexChanges := { frames := 7, textures := 8 }

/-- A filesystem where the HD files exist and decode and every write
succeeds. -/
def fsAll : Fs :=
  { entries := fun p => if p.dir = "anim" then FsEntry.anim anim1 else FsEntry.absent
    create := fun _ => true
    writeOk := fun _ => true
    renameOk := fun _ _ => true
    mainsdAt := fun _ => Except.ok sdData }

def fsReloadErr : Fs := { fsAll with mainsdAt := fun _ => Except.error "reload failed" }

def fsCreateFail : Fs := { fsAll with create := fun _ => false }

def fsRenameFail : Fs := { fsAll with renameOk := fun _ _ => false }

def fsOpenErr : Fs :=
  { fsAll with entries := fun p =>
      if p.dir = "anim" then FsEntry.openErr "io error" else FsEntry.absent }

def fsDecodeErr : Fs :=
  { fsAll with entries := fun p =>
      if p.dir = "anim" then FsEntry.decodeErr "bad magic" else FsEntry.absent }

/-- Freshly loaded state whose sprite 0 SD slot is a reference to 1. -/
def filesRefOrig : Files :=
  { sprites := catFix, mainsd_anim := some (pSd, sdRef), root_path := none
    open_files := [], edits := [] }

/-- Freshly loaded state whose SD slots all own their data. -/
def filesDataOrig : Files :=
  { sprites := catFix, mainsd_anim := some (pSd, sdData), root_path := none
    open_files := [], edits := [] }

def filesC1 : Files := Files.set_tex_changes fsAll filesRefOrig 0 SpriteType.sd texFix

/-- C1 (amended): in every state reachable from a freshly loaded Files
value by the four mutation operations, every overlay entry holding an
explicit Values edit differs from what resolving its key against the
unedited original yields, and has_changes() is true iff the overlay is
non-empty.  A Ref-valued overlay entry, however, may coincide with the
original: set_tex_changes on a key with no pending edit whose original is
a reference seeds the entry with that same reference and never collapses
it (see the counterexample), so the claim's invariant does not hold for
Ref entries. -/
theorem claim_C1 (fs : Fs) (f : Files) (h : Reachable fs f) :
    InvE fs (f.mainsd_anim.map Prod.snd) f.sprites f.edits ∧
    (Files.has_changes f = true ↔ f.edits ≠ []) := by
  refine ⟨(stateOk_of_reachable fs f h).2, ?_⟩
  cases hE : f.edits <;> simp [Files.has_changes, hE]

theorem claim_C1_witness :
    InvE fsAll (filesDataOrig.mainsd_anim.map Prod.snd) filesDataOrig.sprites
      filesDataOrig.edits ∧
    (Files.has_changes filesDataOrig = true ↔ filesDataOrig.edits ≠ []) :=
  claim_C1 fsAll filesDataOrig (Reachable.fresh filesDataOrig rfl rfl)

/-- C1 counterexample: after one set_tex_changes call on a sprite whose
original is a reference, the overlay holds an entry equal to what the
unedited original yields (the same Ref target), refuting the claimed
invariant; has_changes() nevertheless reports pending edits. -/
theorem claim_C1_cex :
    Reachable fsAll filesC1 ∧
    editsLookup filesC1.edits (0, SpriteType.sd) = some (Edit.ref 1) ∧
    origResolve fsAll (filesC1.mainsd_anim.map Prod.snd) filesC1.sprites 0
      SpriteType.sd = some (ValuesOrRef.ref 1) ∧
    Edit.matchesOrig (Edit.ref 1) (ValuesOrRef.ref 1) = true ∧
    Files.has_changes filesC1 = true :=
  ⟨Reachable.step_tex_changes 0 SpriteType.sd texFix
      (Reachable.fresh filesRefOrig rfl rfl),
    by decide, by decide, by decide, by decide⟩

/-- State with one pending SD edit. -/
def fC2 : Files :=
  { sprites := catFix, mainsd_anim := some (pSd, sdData), root_path := none
    open_files := []
    edits := [((0, SpriteType.sd), Edit.values { values := v2, tex_changes := none })] }

theorem claim_C2_witness :
    (Files.save fsRenameFail fC2).2.1.edits = fC2.edits ∧
    (Files.save fsRenameFail fC2).2.2.renAttempted =
      (Files.save fsRenameFail fC2).2.2.commitList.take
        (Files.save fsRenameFail fC2).2.2.renAttempted.length :=
  ⟨(claim_C2 fsRenameFail fC2).2.2.2 (by decide), (claim_C2 fsRenameFail fC2).1⟩

/-- State with one pending HD edit. -/
def fC2x : Files :=
  { sprites := catFix, mainsd_anim := some (pSd, sdData), root_path := none
    open_files := []
    edits := [((0, SpriteType.hd), Edit.values { values := v2, tex_changes := none })] }

/-- C2 counterexample: with one pending SD edit, a working rename and a
failing aggregate reload, every rename is attempted and succeeds (the
commit list is non-empty and fully renamed), yet save() errors and the
overlay is not cleared — refuting "the edits overlay is cleared if and
only if every rename succeeded". -/
theorem claim_C2_cex :
    (Files.save fsReloadErr fC2).2.2.renAttempted =
      (Files.save fsReloadErr fC2).2.2.commitList ∧
    (Files.save fsReloadErr fC2).2.2.renOk =
      (Files.save fsReloadErr fC2).2.2.renAttempted ∧
    (Files.save fsReloadErr fC2).2.2.commitList ≠ [] ∧
    (Files.save fsReloadErr fC2).1 ≠ Except.ok () ∧
    (Files.save fsReloadErr fC2).2.1.edits = fC2.edits ∧
    fC2.edits ≠ [] := by
  refine ⟨by decide, by decide, by decide, by decide, by decide, by decide⟩

theorem claim_C3_witness :
    (Files.save fsAll filesDataOrig).2.2.created = [] ∧
    (Files.save fsAll filesDataOrig).2.2.renAttempted = [] ∧
    (Files.save fsAll filesDataOrig).2.2.reloadAttempted =
      filesDataOrig.mainsd_anim.isSome :=
  ⟨(claim_C3 fsAll filesDataOrig rfl).1,
    (claim_C3 fsAll filesDataOrig rfl).2.2.1,
    (claim_C3 fsAll filesDataOrig rfl).2.2.2.1⟩

/-- C3 counterexample: with an empty overlay and an open aggregate
container, save() still closes the aggregate and attempts to reload it
from disk; if the reload fails the aggregate handle is lost and save()
errors — refuting both "leaves the aggregate container open and
unchanged" and "reloaded only if touched". -/
theorem claim_C3_cex :
    filesDataOrig.edits = [] ∧
    (Files.save fsReloadErr filesDataOrig).2.2.reloadAttempted = true ∧
    (Files.save fsReloadErr filesDataOrig).2.1.mainsd_anim = none ∧
    (Files.save fsReloadErr filesDataOrig).1 ≠ Except.ok () ∧
    filesDataOrig.mainsd_anim ≠ none := by
  refine ⟨rfl, by decide, by decide, by decide, by decide⟩

/-- State whose only edit is a Ref edit on an HD key. -/
def fC4 : Files :=
  { sprites := catFix, mainsd_anim := some (pSd, sdData), root_path := none
    open_files := [], edits := [((1, SpriteType.hd), Edit.ref 2)] }

theorem claim_C4_witness :
    (Files.save fsAll fC4).1 ≠ Except.ok () ∧
    (Files.save fsAll fC4).2.2.renAttempted = [] ∧
    (Files.save fsAll fC4).2.2.renOk = [] ∧
    (Files.save fsAll fC4).2.1 = fC4 :=
  claim_C4 fsAll fC4 (1, SpriteType.hd) 2 (by decide) (by decide)

/-- State with a Values HD edit ordered before a Ref HD edit. -/
def fC4x : Files :=
  { sprites := catFix, mainsd_anim := some (pSd, sdData), root_path := none
    open_files := []
    edits := [((0, SpriteType.hd), Edit.values { values := v2, tex_changes := none }),
      ((1, SpriteType.hd), Edit.ref 2)] }

/-- C4 counterexample: with a Values HD edit processed before the Ref HD
edit, a temporary file is created before the structural error is raised,
refuting "no temporary file is created ... for every order in which
save() processes the edits". -/
theorem claim_C4_cex :
    editsLookup fC4x.edits (1, SpriteType.hd) = some (Edit.ref 2) ∧
    (Files.save fsAll fC4x).1 ≠ Except.ok () ∧
    (Files.save fsAll fC4x).2.2.created = [temp_file_path pHd0] ∧
    (Files.save fsAll fC4x).2.2.renAttempted = [] := by
  refine ⟨by decide, by decide, by decide, by decide⟩

theorem filterKey_nil (l : EditMap) (k : Nat × SpriteType)
    (h : ∀ e ∈ l, e.1 ≠ k) : l.filter (fun e => e.1 = k) = [] := by
  induction l with
  | nil => rfl
  | cons hd tl ih =>
    have h1 : ¬ hd.1 = k := h hd (by simp)
    simp only [List.filter_cons]
    rw [if_neg (by simp [h1])]
    exact ih (fun e he => h e (by simp [he]))

theorem filterKey_insert (l : EditMap) (k : Nat × SpriteType) (v : Edit)
    (hnd : (l.map Prod.fst).Nodup) :
    ((editsInsert l k v).filter (fun e => e.1 = k)).length = 1 := by
  induction l with
  | nil => simp [editsInsert]
  | cons hd tl ih =>
    obtain ⟨a, b⟩ := hd
    simp only [List.map_cons, List.nodup_cons] at hnd
    obtain ⟨hna, hnd2⟩ := hnd
    by_cases h1 : a = k
    · subst h1
      simp only [editsInsert, if_pos rfl, List.filter_cons]
      rw [if_pos (by simp)]
      have : tl.filter (fun e => e.1 = a) = [] := by
        refine filterKey_nil tl a (fun e he => ?_)
        intro hek
        exact hna (hek ▸ List.mem_map_of_mem Prod.fst he)
      simp [this]
    · simp only [editsInsert, if_neg h1, List.filter_cons]
      rw [if_neg (by simp [h1])]
      exact ih hnd2

/-- The composite view of a sprite whose overlay entry is a Ref edit, with
the aggregate container open: always an `Ok` file reporting the edited
reference target. -/
theorem file_ref_sd (fs : Fs) (g : Files) (s t : Nat) (q : FsPath)
    (msd : MainSd)
    (he : editsLookup g.edits (s, SpriteType.sd) = some (Edit.ref t))
    (hm : g.mainsd_anim = some (q, msd)) :
    ∃ fl, (Files.file fs g s SpriteType.sd).1 = FileResult.ok fl ∧
      fl.imageRef = some t := by
  unfold Files.file
  rw [he]
  dsimp only
  rw [if_neg (fun hh => hh rfl)]
  rw [hm]
  dsimp only
  cases hre : editsLookup g.edits (t, SpriteType.sd) with
  | none => exact ⟨_, rfl, rfl⟩
  | some e =>
    cases e with
    | values x => exact ⟨_, rfl, rfl⟩
    | ref j => exact ⟨_, rfl, rfl⟩

/-- C5 (amended): where the location resolves, set_ref_img removes the
overlay entry when the new target equals the original resolved reference
target and otherwise leaves exactly one overlay entry Ref(t) for the key;
when the variant is SD, a subsequent Composite View lookup for
(sprite, Sd) then reports reference target t via image_ref().  (The
original claim asserted the Composite View consequence for every variant;
for HD/HD2 the inserted entry is keyed by the non-SD variant and the
(sprite, Sd) lookup does not report t — see the counterexample.) -/
theorem claim_C5 (fs : Fs) (f : Files) (s : Nat) (ty : SpriteType) (t : Nat)
    (loc : FileLocation)
    (hloc : (locationOpt fs (f.mainsd_anim.map Prod.snd) f.open_files
      f.sprites s ty).1 = some loc) :
    (loc.image_ref = some t →
      (Files.set_ref_img fs f s ty t).edits = editsRemove f.edits (s, ty)) ∧
    (loc.image_ref ≠ some t →
      (Files.set_ref_img fs f s ty t).edits =
        editsInsert f.edits (s, ty) (Edit.ref t) ∧
      editsLookup (Files.set_ref_img fs f s ty t).edits (s, ty) =
        some (Edit.ref t) ∧
      ((f.edits.map Prod.fst).Nodup →
        ((Files.set_ref_img fs f s ty t).edits.filter
          (fun e => e.1 = (s, ty))).length = 1)) ∧
    (ty = SpriteType.sd → loc.image_ref ≠ some t →
      ∃ fl, (Files.file fs (Files.set_ref_img fs f s ty t) s SpriteType.sd).1 =
          FileResult.ok fl ∧ fl.imageRef = some t) := by
  refine ⟨?_, ?_, ?_⟩
  · intro himg
    unfold Files.set_ref_img
    dsimp only
    rw [hloc]
    dsimp only
    rw [if_pos (by simp [himg])]
  · intro hneq
    have heqE : (Files.set_ref_img fs f s ty t).edits =
        editsInsert f.edits (s, ty) (Edit.ref t) := by
      unfold Files.set_ref_img
      dsimp only
      rw [hloc]
      dsimp only
      rw [if_neg (by simp [hneq])]
    refine ⟨heqE, ?_, ?_⟩
    · rw [heqE, editsLookup_insert, if_pos rfl]
    · intro hnd
      rw [heqE]
      exact filterKey_insert f.edits (s, ty) (Edit.ref t) hnd
  · intro hty hneq
    subst hty
    have heqE : (Files.set_ref_img fs f s SpriteType.sd t).edits =
        editsInsert f.edits (s, SpriteType.sd) (Edit.ref t) := by
      unfold Files.set_ref_img
      dsimp only
      rw [hloc]
      dsimp only
      rw [if_neg (by simp [hneq])]
    have hm2 : (Files.set_ref_img fs f s SpriteType.sd t).mainsd_anim =
        f.mainsd_anim := by
      unfold Files.set_ref_img
      dsimp only
      rw [hloc]
      dsimp only
      rw [if_neg (by simp [hneq])]
    have hloc2 := hloc
    rw [locationOpt_sd] at hloc2
    dsimp only at hloc2
    cases hm : f.mainsd_anim with
    | none =>
      rw [hm] at hloc2
      simp at hloc2
    | some psd =>
      obtain ⟨q, msd⟩ := psd
      refine file_ref_sd fs _ s t q msd ?_ ?_
      · rw [heqE, editsLookup_insert, if_pos rfl]
      · rw [hm2, hm]

theorem claim_C5_witness :
    (Files.set_ref_img fsAll filesRefOrig 0 SpriteType.sd 2).edits =
      editsInsert filesRefOrig.edits (0, SpriteType.sd) (Edit.ref 2) ∧
    editsLookup (Files.set_ref_img fsAll filesRefOrig 0 SpriteType.sd 2).edits
      (0, SpriteType.sd) = some (Edit.ref 2) ∧
    (∃ fl, (Files.file fsAll
        (Files.set_ref_img fsAll filesRefOrig 0 SpriteType.sd 2) 0
        SpriteType.sd).1 = FileResult.ok fl ∧ fl.imageRef = some 2) :=
  ⟨((claim_C5 fsAll filesRefOrig 0 SpriteType.sd 2 (FileLocation.mainSd 0 sdRef)
      (by decide)).2.1 (by decide)).1,
   ((claim_C5 fsAll filesRefOrig 0 SpriteType.sd 2 (FileLocation.mainSd 0 sdRef)
      (by decide)).2.1 (by decide)).2.1,
   (claim_C5 fsAll filesRefOrig 0 SpriteType.sd 2 (FileLocation.mainSd 0 sdRef)
      (by decide)).2.2 rfl (by decide)⟩

def fC5 : Files := Files.set_ref_img fsAll filesDataOrig 0 SpriteType.hd 5

/-- C5 counterexample: for the HD variant (whose location resolves), the
inserted entry is keyed by (0, Hd), and the Composite View lookup for
(0, Sd) does not report reference target 5 — refuting the claim's
Composite View consequence as stated for every variant. -/
theorem claim_C5_cex :
    (locationOpt fsAll (filesDataOrig.mainsd_anim.map Prod.snd)
      filesDataOrig.open_files filesDataOrig.sprites 0 SpriteType.hd).1 =
      some (FileLocation.separate anim1) ∧
    editsLookup fC5.edits (0, SpriteType.hd) = some (Edit.ref 5) ∧
    FileResult.imageRefOf (Files.file fsAll fC5 0 SpriteType.sd).1 = none := by
  refine ⟨by decide, by decide, by decide⟩

/-- C6 (confirmed): set_ref_enabled ignores non-SD variants; for SD, when
the requested state equals the original's reference status the overlay
entry is removed; enabling on an originally non-reference sprite inserts
Ref(0); disabling on an originally referencing sprite inserts the sentinel
explicit values (unknown field 65535 = 16-bit all-bits-set, width 0,
height 0) with no texture change, overwriting any prior entry for the
key. -/
theorem claim_C6 (fs : Fs) (f : Files) (s : Nat) (ty : SpriteType) (b : Bool) :
    (ty ≠ SpriteType.sd → Files.set_ref_enabled fs f s ty b = f) ∧
    (∀ o, ((locationOpt fs (f.mainsd_anim.map Prod.snd) f.open_files f.sprites
        s SpriteType.sd).1).bind FileLocation.values_or_ref = some o →
      (((match o with
          | ValuesOrRef.ref _ => true
          | ValuesOrRef.values _ => false) = b) →
        (Files.set_ref_enabled fs f s SpriteType.sd b).edits =
          editsRemove f.edits (s, SpriteType.sd)) ∧
      (∀ v, o = ValuesOrRef.values v → b = true →
        (Files.set_ref_enabled fs f s SpriteType.sd b).edits =
          editsInsert f.edits (s, SpriteType.sd) (Edit.ref 0)) ∧
      (∀ tt, o = ValuesOrRef.ref tt → b = false →
        (Files.set_ref_enabled fs f s SpriteType.sd b).edits =
          editsInsert f.edits (s, SpriteType.sd)
            (Edit.values { values := { unk2 := 65535, width := 0, height := 0 }, tex_changes := none }))) := by
  constructor
  · intro hty
    unfold Files.set_ref_enabled
    rw [if_pos hty]
  · intro o horig
    refine ⟨?_, ?_, ?_⟩
    · intro hmatch
      unfold Files.set_ref_enabled
      rw [if_neg (fun hh => hh rfl)]
      dsimp only
      rw [horig]
      dsimp only
      rw [if_pos hmatch]
    · intro v hov hb
      subst hov
      subst hb
      unfold Files.set_ref_enabled
      rw [if_neg (fun hh => hh rfl)]
      dsimp only
      rw [horig]
      dsimp only
      rw [if_neg (fun hh => Bool.noConfusion hh)]
    · intro tt hov hb
      subst hov
      subst hb
      unfold Files.set_ref_enabled
      rw [if_neg (fun hh => hh rfl)]
      dsimp only
      rw [horig]
      dsimp only
      rw [if_neg (fun hh => Bool.noConfusion hh)]

theorem claim_C6_witness :
    (Files.set_ref_enabled fsAll filesRefOrig 0 SpriteType.sd false).edits =
      editsInsert filesRefOrig.edits (0, SpriteType.sd)
        (Edit.values { values := { unk2 := 65535, width := 0, height := 0 }, tex_changes := none }) ∧
    Files.set_ref_enabled fsAll filesRefOrig 0 SpriteType.hd true =
      filesRefOrig :=
  ⟨((claim_C6 fsAll filesRefOrig 0 SpriteType.sd false).2 (ValuesOrRef.ref 1)
      (by decide)).2.2 1 rfl rfl,
   (claim_C6 fsAll filesRefOrig 0 SpriteType.hd true).1 (by decide)⟩

/-- C7 (confirmed): set_tex_changes on a key whose current overlay entry
is a Ref edit leaves the overlay unchanged (the entry remains the same Ref
with no texture-change payload); the operation cannot report an error. -/
theorem claim_C7 (fs : Fs) (f : Files) (s : Nat) (ty : SpriteType)
    (ch : TexChanges) (i : Nat)
    (h : editsLookup f.edits (s, ty) = some (Edit.ref i)) :
    (Files.set_tex_changes fs f s ty ch).edits = f.edits := by
  unfold Files.set_tex_changes
  dsimp only
  split
  · rfl
  · rw [h]
    exact editsInsert_self f.edits (s, ty) (Edit.ref i) h

def fC7 : Files :=
  { sprites := catFix, mainsd_anim := some (pSd, sdRef), root_path := none
    open_files := [], edits := [((0, SpriteType.sd), Edit.ref 1)] }

theorem claim_C7_witness :
    (Files.set_tex_changes fsAll fC7 0 SpriteType.sd texFix).edits = fC7.edits :=
  claim_C7 fsAll fC7 0 SpriteType.sd texFix 1 (by decide)

theorem find_none_of_cacheOk (fs : Fs) (sprites : List SpriteFiles)
    (of : OpenFiles) (s : Nat) (ty : SpriteType)
    (hc : cacheOk fs sprites of)
    (h : ∀ p a, separate_file_path fs sprites s ty = some p →
      fs.entries p ≠ FsEntry.anim a) :
    List.find? (fun x => decide (x.2.1 = s ∧ x.2.2 = ty)) of = none := by
  cases hfind : List.find? (fun x => decide (x.2.1 = s ∧ x.2.2 = ty)) of with
  | none => rfl
  | some entry =>
    have hmem := List.mem_of_find?_eq_some hfind
    have hpred := List.find?_some hfind
    simp only [decide_eq_true_eq] at hpred
    obtain ⟨hs, hty2⟩ := hpred
    obtain ⟨-, p', hp', hent'⟩ := hc entry hmem
    rw [hs, hty2] at hp'
    exact absurd hent' (h p' entry.1 hp')

/-- C8 (confirmed): in any cache-consistent state, an HD/HD2 resolution
returns NotFound (`Ok(None)`) when the catalogue has no expected path or
the expected path is not an existing regular file, whereas an I/O failure
opening the file or a decode failure reading it is returned as an `Err` —
two syntactically distinct outcomes that are never conflated. -/
theorem claim_C8 (fs : Fs) (of : OpenFiles) (sprites : List SpriteFiles)
    (s : Nat) (ty : SpriteType) (hc : cacheOk fs sprites of) :
    (separate_file_path fs sprites s ty = none →
      file_location_hd fs of sprites s ty = (Except.ok none, of)) ∧
    (∀ p e, separate_file_path fs sprites s ty = some p →
      fs.entries p = FsEntry.openErr e →
      file_location_hd fs of sprites s ty = (Except.error e, of)) ∧
    (∀ p e, separate_file_path fs sprites s ty = some p →
      fs.entries p = FsEntry.decodeErr e →
      file_location_hd fs of sprites s ty = (Except.error e, of)) := by
  refine ⟨?_, ?_, ?_⟩
  · intro hsep
    have hmiss := find_none_of_cacheOk fs sprites of s ty hc
      (fun p a hp => by rw [hsep] at hp; exact Option.noConfusion hp)
    unfold file_location_hd
    simp only [hmiss, hsep]
  · intro p e hsep hent
    have hmiss := find_none_of_cacheOk fs sprites of s ty hc
      (fun p' a hp' => by
        rw [hsep] at hp'
        cases hp'
        rw [hent]
        exact fun hh => FsEntry.noConfusion hh)
    unfold file_location_hd
    simp only [hmiss, hsep, hent]
  · intro p e hsep hent
    have hmiss := find_none_of_cacheOk fs sprites of s ty hc
      (fun p' a hp' => by
        rw [hsep] at hp'
        cases hp'
        rw [hent]
        exact fun hh => FsEntry.noConfusion hh)
    unfold file_location_hd
    simp only [hmiss, hsep, hent]

theorem claim_C8_witness :
    file_location_hd fsAll [] catFix 5 SpriteType.hd = (Except.ok none, []) ∧
    file_location_hd fsAll [] catFix 0 SpriteType.hd2 = (Except.ok none, []) ∧
    file_location_hd fsOpenErr [] catFix 0 SpriteType.hd =
      (Except.error "io error", []) ∧
    file_location_hd fsDecodeErr [] catFix 0 SpriteType.hd =
      (Except.error "bad magic", []) :=
  ⟨(claim_C8 fsAll [] catFix 5 SpriteType.hd (cacheOk_nil fsAll catFix)).1
     (by decide),
   (claim_C8 fsAll [] catFix 0 SpriteType.hd2 (cacheOk_nil fsAll catFix)).1
     (by decide),
   (claim_C8 fsOpenErr [] catFix 0 SpriteType.hd
     (cacheOk_nil fsOpenErr catFix)).2.1 pHd0 "io error" (by decide) (by decide),
   (claim_C8 fsDecodeErr [] catFix 0 SpriteType.hd
     (cacheOk_nil fsDecodeErr catFix)).2.2 pHd0 "bad magic" (by decide)
     (by decide)⟩

/-- C9 (confirmed): set_ref_img performs no SD restriction — whenever the
HD/HD2 location resolves, the resolved location is a separately opened
file whose original reference target is None, so the removal-on-match
branch can never trigger and a Ref edit keyed by the non-SD variant is
always inserted. -/
theorem claim_C9 (fs : Fs) (f : Files) (s : Nat) (ty : SpriteType) (t : Nat)
    (loc : FileLocation) (hty : ty ≠ SpriteType.sd)
    (hloc : (locationOpt fs (f.mainsd_anim.map Prod.snd) f.open_files
      f.sprites s ty).1 = some loc) :
    loc.image_ref = none ∧
    (Files.set_ref_img fs f s ty t).edits =
      editsInsert f.edits (s, ty) (Edit.ref t) ∧
    editsLookup (Files.set_ref_img fs f s ty t).edits (s, ty) =
      some (Edit.ref t) := by
  have hsepA : ∃ a, loc = FileLocation.separate a := by
    rcases locationOpt_hd_cases fs (f.mainsd_anim.map Prod.snd) f.open_files
        f.sprites s ty hty with
      ⟨entry, hfind, hl2⟩ | ⟨hfind, hrest⟩
    · have hh := hloc
      rw [hl2] at hh
      simp at hh
      exact ⟨entry.1, hh.symm⟩
    · rcases hrest with ⟨hsep0, hl2⟩ | ⟨p, hsep0, hrest2⟩
      · have hh := hloc
        rw [hl2] at hh
        simp at hh
      · rcases hrest2 with ⟨a, hent, hl2⟩ | ⟨hna, hl2⟩
        · have hh := hloc
          rw [hl2] at hh
          simp at hh
          exact ⟨a, hh.symm⟩
        · have hh := hloc
          rw [hl2] at hh
          simp at hh
  obtain ⟨a, rfl⟩ := hsepA
  have heqE : (Files.set_ref_img fs f s ty t).edits =
      editsInsert f.edits (s, ty) (Edit.ref t) := by
    unfold Files.set_ref_img
    dsimp only
    rw [hloc]
    dsimp only
    rw [if_neg (by simp [FileLocation.image_ref])]
  refine ⟨rfl, heqE, ?_⟩
  rw [heqE, editsLookup_insert, if_pos rfl]

theorem claim_C9_witness :
    (FileLocation.separate anim1).image_ref = none ∧
    (Files.set_ref_img fsAll filesDataOrig 0 SpriteType.hd 5).edits =
      editsInsert filesDataOrig.edits (0, SpriteType.hd) (Edit.ref 5) ∧
    editsLookup (Files.set_ref_img fsAll filesDataOrig 0 SpriteType.hd 5).edits
      (0, SpriteType.hd) = some (Edit.ref 5) :=
  claim_C9 fsAll filesDataOrig 0 SpriteType.hd 5 (FileLocation.separate anim1)
    (by decide) (by decide)

def filesC10 : Files := Files.set_ref_img fsAll filesDataOrig 0 SpriteType.hd 3

/-- C10 (confirmed): Files.file is total — never hits its
`assert_eq!(ty, Sd)` panic — under the precondition that every Ref edit in
the overlay is keyed by the SD variant; conversely, for any state holding
a Ref edit at an HD/HD2 key, looking up that key panics, and such states
are reachable via set_ref_img (concrete instance included). -/
theorem claim_C10 :
    (∀ (fs : Fs) (f : Files) (s : Nat) (ty : SpriteType),
      (∀ k r, editsLookup f.edits k = some (Edit.ref r) → k.2 = SpriteType.sd) →
      (Files.file fs f s ty).1 ≠ FileResult.panic) ∧
    (∀ (fs : Fs) (f : Files) (s : Nat) (ty : SpriteType) (r : Nat),
      ty ≠ SpriteType.sd → editsLookup f.edits (s, ty) = some (Edit.ref r) →
      (Files.file fs f s ty).1 = FileResult.panic) ∧
    (Reachable fsAll filesC10 ∧
      (Files.file fsAll filesC10 0 SpriteType.hd).1 = FileResult.panic) := by
  refine ⟨?_, ?_, ?_, by decide⟩
  · intro fs f s ty hpre
    unfold Files.file
    cases hlk : editsLookup f.edits (s, ty) with
    | none =>
      dsimp only
      split
      · split
        · split <;> simp
        · simp
      · simp
      · simp
    | some e =>
      cases e with
      | values x =>
        dsimp only
        split <;> simp
      | ref i =>
        have hty : ty = SpriteType.sd := hpre (s, ty) i hlk
        subst hty
        dsimp only
        rw [if_neg (fun hh => hh rfl)]
        split
        · simp
        · split <;> simp
  · intro fs f s ty r hty hlk
    unfold Files.file
    rw [hlk]
    dsimp only
    rw [if_pos hty]
  · exact Reachable.step_ref_img 0 SpriteType.hd 3
      (Reachable.fresh filesDataOrig rfl rfl)

theorem claim_C10_witness :
    (Files.file fsAll filesDataOrig 0 SpriteType.sd).1 ≠ FileResult.panic ∧
    (Files.file fsAll filesC10 0 SpriteType.hd).1 = FileResult.panic :=
  ⟨claim_C10.1 fsAll filesDataOrig 0 SpriteType.sd
      (fun k r h => Option.noConfusion h),
   claim_C10.2.2.2⟩
